import Mathlib

set_option maxHeartbeats 1000000

/-!
Shallow embedding of `src/sniphubProvider.ts` (coc-snippets, sniphub provider).

JavaScript strings are modelled as Lean `String`; the handful of string
operations the source uses (`endsWith`, `slice(0, n)`, `trim`, the regex test
of a trailing whitespace, indexing the last character) are defined below over
`String.data` with JS semantics.  Regular expressions are opaque to every
claim, so a compiled regex is modelled as its first-match function
`String → Option String` (JS `line.match(re)` without the global flag yields
the first match, and `ms[0]` is its full matched text).  Asynchronous host
capabilities (`BaseProvider.checkContext`, `document.isWord`) are parameters.
-/

/-- JS `s.endsWith(t)`: `t` is a suffix of `s`. -/
def jsEndsWith (s t : String) : Bool :=
  t.data.isSuffixOf s.data

/-- JS `s.slice(0, n)` for `0 ≤ n ≤ s.length`: the first `n` characters. -/
def jsSlice0 (s : String) (n : Nat) : String :=
  ⟨s.data.take n⟩

/-- JS `s.trim()`: strip whitespace from both ends. -/
def jsTrim (s : String) : String :=
  ⟨((s.data.dropWhile Char.isWhitespace).reverse.dropWhile Char.isWhitespace).reverse⟩

/-- JS `/\s$/.test(s)`: the last character of `s` exists and is whitespace. -/
def jsWsEnd (s : String) : Bool :=
  match s.data.getLast? with
  | some c => c.isWhitespace
  | none => false

/-- JS `s[s.length - 1]` (only evaluated by the source when `s` is non-empty). -/
def jsLastChar (s : String) : Char :=
  (s.data.getLast?).getD 'A'

/-- `TriggerKind` from `types.ts` (not under `src/`); the four values are fixed
by the spec (§3, §4.4) and by the source's uses at lines 89–93. -/
inductive TriggerKind where
  | InWord
  | LineBegin
  | SpaceBefore
  | WordBoundary
deriving DecidableEq, Repr

/-- `Snippet` from `types.ts` (not under `src/`); fields are exactly those the
source reads (lines 39–48, 85–128, 155–176) and the spec's §3 data model.
The source's field `prefix` is named `snipPrefix` (`prefix` is reserved in
Lean); optional (possibly `undefined`) fields are `Option`s. -/
structure Snippet where
  filepath : String
  lnum : Nat
  body : String
  snipPrefix : String
  description : String
  triggerKind : TriggerKind
  filetype : String
  regex : Option (String → Option String) := none
  originRegex : Option String := none
  context : Option String := none
  priority : Option Int := none
  autoTrigger : Option Bool := none

/-- `Position` from coc.nvim: zero-based line and character. -/
structure Position where
  line : Nat
  character : Nat
deriving DecidableEq, Repr

/-- `Range.create(startLine, startCharacter, endLine, endCharacter)`.  The
start character is an `Int` because the source computes
`position.character - length` without clamping (line 113, 116). -/
structure CocRange where
  startLine : Nat
  startCharacter : Int
  endLine : Nat
  endCharacter : Int
deriving DecidableEq, Repr

/-- `SnippetEdit` from `types.ts`, with exactly the fields the source fills at
lines 119–128 (the source's `prefix` field is `snipPrefix` here). -/
structure SnippetEdit where
  range : CocRange
  newText : String
  snipPrefix : String
  description : String
  location : String
  priority : Option Int
  regex : Option String
  context : Option String
deriving DecidableEq, Repr

/-- The read-only view of a coc.nvim `Document` that the source consumes:
`getline`, `filetype` and the host word-character classifier `isWord`. -/
structure Doc where
  getline : Nat → String
  filetype : String
  isWord : Char → Bool

/-- Source lines 39–48:
```
function getMatched(snippet, line) {
  let { prefix, regex } = snippet
  if (regex) { let ms = line.match(regex); if (!ms) return undefined; return ms[0] }
  if (!line.endsWith(prefix)) return undefined
  return prefix
}
``` -/
def getMatched (snippet : Snippet) (line : String) : Option String :=
  match snippet.regex with
  | some re => re line
  | none => if jsEndsWith line snippet.snipPrefix then some snippet.snipPrefix else none

/-- JS truthiness of the optional `context` string: `undefined` and `""` are
falsy (source lines 97–98, 105 test `s.context` directly). -/
def ctxTruthy (s : Snippet) : Bool :=
  match s.context with
  | some c => !(c == "")
  | none => false

/-- The candidate predicate of `getTriggerSnippets` (source lines 85–95), the
body of the `.filter`:
```
if (autoTrigger && !s.autoTrigger) return false
let match = getMatched(s, line)
if (match == null) return false
if (s.triggerKind == TriggerKind.InWord) return true
let pre = line.slice(0, line.length - match.length)
if (s.triggerKind == TriggerKind.LineBegin) return pre.trim() == ''
if (s.triggerKind == TriggerKind.SpaceBefore) return pre.length == 0 || /\s$/.test(pre)
if (s.triggerKind == TriggerKind.WordBoundary) return pre.length == 0 || !document.isWord(pre[pre.length - 1])
return false
```
The `autoTrigger` parameter is optional in the source (`autoTrigger?:
boolean`); JS truthiness of `undefined` is `false`, hence `auto.getD false`. -/
def triggerFilter (isWord : Char → Bool) (line : String) (auto : Option Bool)
    (s : Snippet) : Bool :=
  if auto.getD false && !(s.autoTrigger.getD false) then false
  else
    match getMatched s line with
    | none => false
    | some m =>
      if s.triggerKind = TriggerKind.InWord then true
      else
        let pre := jsSlice0 line (line.length - m.length)
        if s.triggerKind = TriggerKind.LineBegin then jsTrim pre == ""
        else if s.triggerKind = TriggerKind.SpaceBefore then
          pre.length == 0 || jsWsEnd pre
        else if s.triggerKind = TriggerKind.WordBoundary then
          pre.length == 0 || !(isWord (jsLastChar pre))
        else false

/-- The comparator of source lines 96–100:
```
snippets.sort((a, b) => {
  if (a.context && !b.context) return -1
  if (b.context && !a.context) return 1
  return 0
})
``` -/
def contextCompare (a b : Snippet) : Int :=
  if ctxTruthy a && !(ctxTruthy b) then -1
  else if ctxTruthy b && !(ctxTruthy a) then 1
  else 0

/-- Stable insertion into a sorted list: `x` goes in front of the first
element it does not strictly follow (`cmp x y ≤ 0`). -/
def insertCmp {α : Type} (cmp : α → α → Int) (x : α) : List α → List α
  | [] => [x]
  | y :: l => if cmp x y ≤ 0 then x :: y :: l else y :: insertCmp cmp x l

/-- Stable insertion sort by a comparator.  `Array.prototype.sort` is required
to be stable (ES2019), and all stable sorts by the same comparator with
consistent two-valued classes agree, so this models the source's `.sort`. -/
def sortCmp {α : Type} (cmp : α → α → Int) : List α → List α
  | [] => []
  | x :: l => insertCmp cmp x (sortCmp cmp l)

/-- `snippets.sort(...)` of source lines 96–100. -/
def sortSnippets (l : List Snippet) : List Snippet :=
  sortCmp contextCompare l

/-- The length of the matched trigger text used for the start column (source
lines 112–117): the prefix length for a literal snippet, else the length of
the first regex match on the line.  In the walk every snippet has passed
`getMatched`, so for a regex snippet the match exists; `getD ""` only fills
the unreachable miss (where the source would throw on `null[0]`). -/
def matchLenOf (s : Snippet) (line : String) : Nat :=
  match s.regex with
  | none => s.snipPrefix.length
  | some re => ((re line).getD "").length

/-- The `SnippetEdit` the source pushes at lines 112–128. -/
def mkEdit (line : String) (pos : Position) (s : Snippet) : SnippetEdit :=
  { range := { startLine := pos.line
               startCharacter := (pos.character : Int) - (matchLenOf s line : Int)
               endLine := pos.line
               endCharacter := (pos.character : Int) }
    newText := s.body
    snipPrefix := s.snipPrefix
    description := s.description
    location := s.filepath
    priority := s.priority
    regex := s.originRegex
    context := s.context }

/-- The candidate walk of source lines 101–130, with `ctx` the host's
`checkContext` (§4.3: an opaque asynchronous boolean capability; evaluation
is sequential, so a pure oracle models it):
```
let edits = []; let hasContext = false
for (let s of snippets) {
  if (s.context) {
    let valid = await this.checkContext(s.context)
    if (!valid) continue
    hasContext = true
  } else if (hasContext) { break }
  ... edits.push({...})
}
``` -/
def snippetWalk (ctx : String → Bool) (line : String) (pos : Position) :
    List Snippet → Bool → List SnippetEdit
  | [], _ => []
  | s :: rest, hasContext =>
    if ctxTruthy s then
      if ctx (s.context.getD "") then
        mkEdit line pos s :: snippetWalk ctx line pos rest true
      else
        snippetWalk ctx line pos rest hasContext
    else if hasContext then []
    else mkEdit line pos s :: snippetWalk ctx line pos rest hasContext

/-- `getTriggerSnippets` (source lines 80–131) as a function of the snippet
list returned by `this.getSnippets(document.filetype)` at line 85, so that
properties of the algorithm can be stated for arbitrary catalogs. -/
def getTriggerSnippetsAlg (ctx : String → Bool) (snips : List Snippet)
    (doc : Doc) (pos : Position) (auto : Option Bool) : List SnippetEdit :=
  if auto.getD false then []
  else
    let line := doc.getline pos.line
    if line.length == 0 then []
    else
      snippetWalk ctx line pos
        (sortSnippets (snips.filter (triggerFilter doc.isWord line auto))) false

/-- `SnippetContent` (source lines 9–17): one raw record from the remote
store. -/
structure SnippetContent where
  content : String
  created_at : String
  id : String
  language : String
  name : String
  public : Bool
  updated_at : String
deriving DecidableEq, Repr

/-- `HttpResponseItem` (source lines 33–35). -/
structure HttpResponseItem where
  snippets : List SnippetContent
deriving DecidableEq, Repr

/-- The JS runtime error raised when a field that was never assigned
(`undefined`) is used as an array (`this.sniphubItems.map(...)` with
`sniphubItems` undefined throws a `TypeError`). -/
inductive JsError where
  | typeError
deriving DecidableEq, Repr

/-- The provider's mutable state: `sniphubItems` is declared at source line 53
but only assigned by a successful `init` (line 65), so it is `none`
(JS `undefined`) until the first successful load. -/
structure ProviderState where
  sniphubItems : Option (List SnippetContent)
deriving DecidableEq, Repr

/-- Modelled from the spec: `BaseProvider.getFiletypes` lives in
`baseProvider.ts`, which is not among the sources.  Per §6 and the glossary it
resolves a file type to itself plus its alias set ("a many-to-one mapping
letting closely related file types share a snippet pool"); the universal
wildcard pool `"all"` is separate from the alias mapping and is appended
explicitly by callers that honor it, as `getSnippetFiles` does at source
line 70 (`filetypes.push('all')` right after `this.getFiletypes(filetype)`).
The alias mapping itself is configuration-dependent, so it is a parameter. -/
def getFiletypes (aliases : String → List String) (filetype : String) :
    List String :=
  filetype :: aliases filetype

/-- `SniphubProvider.init` (source lines 60–66): a successful load replaces
`sniphubItems` with the response's `snippets`; a rejected load leaves the
state untouched (the assignment at line 65 never runs) and the error
propagates to the caller. -/
def SniphubProvider.init (resp : Except String HttpResponseItem)
    (st : ProviderState) : ProviderState :=
  match resp with
  | .ok r => { st with sniphubItems := some r.snippets }
  | .error _ => st

/-- The conversion of `mapItems` (source lines 155–172) on a present item
list: `filepath = id`, `lnum = running counter`, `body = content`,
`prefix = name`, `description = name`, `triggerKind = WordBoundary`,
`filetype = language`; no other field is set. -/
def mapItemsCore (items : List SnippetContent) : List Snippet :=
  items.enum.map fun p =>
    { filepath := p.2.id
      lnum := p.1
      body := p.2.content
      snipPrefix := p.2.name
      description := p.2.name
      triggerKind := TriggerKind.WordBoundary
      filetype := p.2.language }

/-- `SniphubProvider.mapItems` (source lines 155–172): reading
`this.sniphubItems.map` before a successful `init` throws a `TypeError`
(`sniphubItems` is `undefined`). -/
def SniphubProvider.mapItems (st : ProviderState) :
    Except JsError (List Snippet) :=
  match st.sniphubItems with
  | none => .error .typeError
  | some items => .ok (mapItemsCore items)

/-- The filter of `getSnippets` (source lines 174–176) on a present item
list: `this.mapItems().filter(s => this.getFiletypes(filetype).includes(s.filetype))`.
Note it does not append `'all'` to the filetype list. -/
def getSnippetsCore (aliases : String → List String)
    (items : List SnippetContent) (filetype : String) : List Snippet :=
  (mapItemsCore items).filter fun s =>
    (getFiletypes aliases filetype).contains s.filetype

/-- `SniphubProvider.getSnippets` (source lines 174–176). -/
def SniphubProvider.getSnippets (aliases : String → List String)
    (st : ProviderState) (filetype : String) : Except JsError (List Snippet) :=
  (SniphubProvider.mapItems st).map fun snips =>
    snips.filter fun s => (getFiletypes aliases filetype).contains s.filetype

/-- `SniphubProvider.getSnippetFiles` (source lines 68–78): unlike
`getSnippets`, it pushes `'all'` onto the filetype list before filtering. -/
def SniphubProvider.getSnippetFiles (aliases : String → List String)
    (st : ProviderState) (filetype : String) : Except JsError (List String) :=
  match st.sniphubItems with
  | none => .error .typeError
  | some items =>
    let filetypes := getFiletypes aliases filetype ++ ["all"]
    .ok (items.filterMap fun sn =>
      if filetypes.contains sn.language then some sn.id else none)

/-- `SniphubProvider.getTriggerSnippets` (source lines 80–131): the auto
trigger and empty-line early returns run before the catalog is read, then
the filter / sort / walk pipeline runs on `this.getSnippets(document.filetype)`. -/
def SniphubProvider.getTriggerSnippets (ctx : String → Bool)
    (aliases : String → List String) (st : ProviderState) (doc : Doc)
    (pos : Position) (auto : Option Bool) : Except JsError (List SnippetEdit) :=
  if auto.getD false then .ok []
  else
    let line := doc.getline pos.line
    if line.length == 0 then .ok []
    else
      (SniphubProvider.getSnippets aliases st doc.filetype).map fun snips =>
        snippetWalk ctx line pos
          (sortSnippets (snips.filter (triggerFilter doc.isWord line auto))) false

/-- The POST body built by `createSnippet` (source lines 213–218). -/
structure NewSnippetRequest where
  content : Option String
  name : String
  public : Bool
  language : String
deriving DecidableEq, Repr

/-- What a run of `createSnippet` did: the user-visible messages shown, the
POST request issued (if any), and the provider state afterwards. -/
structure CreateOutcome where
  messages : List String
  posted : Option NewSnippetRequest
  state : ProviderState

/-- `SniphubProvider.createSnippet` (source lines 178–227).  External effects
are parameters: `nameInput` is what `window.requestInput('Snippet Name')`
resolved to (`none` for a cancelled prompt; JS `!name` is also true for the
empty string), `refreshResp` is the fetch performed by the `await this.init()`
at line 187, and `serverResp` is the value the POST resolves to (pushed at
line 224).  A rejected refresh makes the whole call reject before the
duplicate check or any POST. -/
def SniphubProvider.createSnippet (text : Option String) (docFiletype : String)
    (nameInput : Option String) (refreshResp : Except String HttpResponseItem)
    (serverResp : SnippetContent) (st : ProviderState) :
    Except String CreateOutcome :=
  let name := nameInput.getD ""
  if name == "" then .ok { messages := [], posted := none, state := st }
  else
    match refreshResp with
    | .error e => .error e
    | .ok r =>
      let st1 : ProviderState := { st with sniphubItems := some r.snippets }
      if (mapItemsCore r.snippets).any
          (fun it => it.snipPrefix == name && it.filetype == docFiletype) then
        .ok { messages :=
                [s!"Snippet with name {name} for this filetype already exists"]
              posted := none
              state := st1 }
      else
        .ok { messages := []
              posted := some { content := text, name := name, public := true
                               language := docFiletype }
              state := { st1 with
                         sniphubItems := some (r.snippets ++ [serverResp]) } }

/-- Concrete word classifier standing in for the host's `document.isWord`. -/
def isWord0 : Char → Bool := fun c => c.isAlphanum || c == '_'

/-- Concrete alias resolution with an empty alias set for every file type. -/
def aliases0 : String → List String := fun _ => []

/-- Concrete context oracle: every context check fails. -/
def ctx0 : String → Bool := fun _ => false

/-- A raw remote record `{name: "fn", language: "go"}` as in the spec's
end-to-end example. -/
def fnContent : SnippetContent :=
  { content := "body", created_at := "", id := "id1", language := "go",
    name := "fn", public := true, updated_at := "" }

/-- A raw remote record whose `language` is the wildcard `"all"`. -/
def allContent : SnippetContent :=
  { content := "c", created_at := "", id := "a1", language := "all",
    name := "x", public := true, updated_at := "" }

/-- Provider state after a successful load of `[fnContent]`. -/
def st0 : ProviderState := ⟨some [fnContent]⟩

/-- Provider state before any successful load (`sniphubItems` undefined). -/
def stEmpty : ProviderState := ⟨none⟩

/-- Document with current line `"  fn"`, file type `"go"`. -/
def doc0 : Doc := { getline := fun _ => "  fn", filetype := "go", isWord := isWord0 }

/-- Document with current line `" fn"`, file type `"go"`. -/
def docNeg : Doc := { getline := fun _ => " fn", filetype := "go", isWord := isWord0 }

/-- Document with current line `"fn"`, file type `"go"`. -/
def docFn : Doc := { getline := fun _ => "fn", filetype := "go", isWord := isWord0 }

/-- Document with current line `"fnx"`, file type `"go"`. -/
def docFnx : Doc := { getline := fun _ => "fnx", filetype := "go", isWord := isWord0 }

/-- A literal-prefix snippet with trigger text `"fn"` and the kind `InWord`
(whose positional rule is trivially true). -/
def c1Snip : Snippet :=
  { filepath := "f", lnum := 0, body := "b", snipPrefix := "fn",
    description := "d", triggerKind := TriggerKind.InWord, filetype := "go" }

/-- `c1Snip` with `autoTrigger` set, for the auto-trigger independence claim. -/
def c9SnipTrue : Snippet :=
  { filepath := "f", lnum := 0, body := "b", snipPrefix := "fn",
    description := "d", triggerKind := TriggerKind.InWord, filetype := "go",
    autoTrigger := some true }

/-- Context-free snippet A of the spec's stable-sort example. -/
def sampA : Snippet :=
  { filepath := "a", lnum := 0, body := "", snipPrefix := "a",
    description := "", triggerKind := TriggerKind.WordBoundary, filetype := "go" }

/-- Context-bearing snippet B of the spec's stable-sort example. -/
def sampB : Snippet :=
  { filepath := "b", lnum := 1, body := "", snipPrefix := "b",
    description := "", triggerKind := TriggerKind.WordBoundary, filetype := "go",
    context := some "cond" }

/-- Context-free snippet C of the spec's stable-sort example. -/
def sampC : Snippet :=
  { filepath := "c", lnum := 2, body := "", snipPrefix := "c",
    description := "", triggerKind := TriggerKind.WordBoundary, filetype := "go" }

/-- The single edit expected from the end-to-end example: catalog
`{prefix:"fn", triggerKind:WordBoundary, filetype:"go"}`, line `"  fn"`,
cursor at column 4 → range `[line, 2]`–`[line, 4]`. -/
def fnEdit : SnippetEdit :=
  { range := ⟨0, 2, 0, 4⟩, newText := "body", snipPrefix := "fn",
    description := "fn", location := "id1", priority := none, regex := none,
    context := none }

/-- The edit emitted for line `" fn"` with the cursor at column 0: its start
character is `0 - 2 = -2`. -/
def negEdit : SnippetEdit :=
  { range := ⟨0, -2, 0, 0⟩, newText := "body", snipPrefix := "fn",
    description := "fn", location := "id1", priority := none, regex := none,
    context := none }

/-- The filtering that claim C3 (spec §4.2) describes, stated in the spec's
own words: filetype equals `ft`, or equals the wildcard `"all"`, or matches an
entry of `ft`'s alias set.  Defined only to be compared against the
source-derived `SniphubProvider.getSnippets`. -/
def getSnippetsClaimed (aliases : String → List String)
    (items : List SnippetContent) (ft : String) : List Snippet :=
  (mapItemsCore items).filter fun s =>
    s.filetype == ft || s.filetype == "all" || (aliases ft).contains s.filetype

/-- A snippet with its `autoTrigger` field erased; two catalogs "differ only
in autoTrigger values" exactly when their images under this map agree. -/
def clearAuto (s : Snippet) : Snippet := { s with autoTrigger := none }

/-- A literal-prefix `LineBegin` snippet with trigger text `"//"` (spec §8's
`LineBegin` example). -/
def c5Snip : Snippet :=
  { filepath := "f", lnum := 0, body := "b", snipPrefix := "//",
    description := "d", triggerKind := TriggerKind.LineBegin, filetype := "go" }

example : jsEndsWith "  fn" "fn" = true := by decide
example : jsEndsWith "  fnx" "fn" = false := by decide
example : jsSlice0 "  fn" 2 = "  " := by decide
example : jsTrim "  " = "" := by decide
example : jsWsEnd "a " = true := by decide

/-! ### Helper lemmas -/

lemma string_length_beq_zero_eq_false {s : String} (h : s ≠ "") :
    (s.length == 0) = false := by
  cases s with
  | mk data =>
    cases data with
    | nil => exact absurd rfl h
    | cons a t => rfl

lemma string_empty_beq_iff (s : String) : ((s.length == 0) = true) ↔ s = "" := by
  cases s with
  | mk data =>
    cases data with
    | nil => exact ⟨fun _ => rfl, fun _ => rfl⟩
    | cons a t =>
      constructor
      · intro h
        exact absurd (beq_iff_eq.mp h) (Nat.succ_ne_zero t.length)
      · intro h
        exact absurd (congrArg String.data h) (fun hh => List.noConfusion hh)

lemma jsEndsWith_append (pre m : String) : jsEndsWith (pre ++ m) m = true := by
  cases pre with
  | mk l1 =>
    cases m with
    | mk l2 =>
      show l2.isSuffixOf (l1 ++ l2) = true
      exact List.isSuffixOf_iff_suffix.mpr (List.suffix_append l1 l2)

lemma jsSlice0_append_cancel (pre m : String) :
    jsSlice0 (pre ++ m) ((pre ++ m).length - m.length) = pre := by
  cases pre with
  | mk l1 =>
    cases m with
    | mk l2 =>
      show (⟨(l1 ++ l2).take ((l1 ++ l2).length - l2.length)⟩ : String) = ⟨l1⟩
      rw [List.length_append, Nat.add_sub_cancel, List.take_left]

lemma string_getLast?_none_eq_empty {s : String} (h : s.data.getLast? = none) :
    s = "" := by
  cases s with
  | mk data =>
    cases data with
    | nil => rfl
    | cons a t => simp [List.getLast?_eq_none_iff] at h

/-! Sort lemmas: the stable sort by the two-class comparator of lines 96–100
is the stable partition (context-bearing candidates first, both blocks in
original order). -/

lemma contextCompare_le_of_left {x y : Snippet} (hx : ctxTruthy x = true) :
    contextCompare x y ≤ 0 := by
  unfold contextCompare
  cases hy : ctxTruthy y <;> simp [hx, hy]

lemma contextCompare_pos {x y : Snippet} (hx : ctxTruthy x = false)
    (hy : ctxTruthy y = true) : ¬ contextCompare x y ≤ 0 := by
  unfold contextCompare
  simp [hx, hy]

lemma contextCompare_zero {x y : Snippet} (hx : ctxTruthy x = false)
    (hy : ctxTruthy y = false) : contextCompare x y ≤ 0 := by
  unfold contextCompare
  simp [hx, hy]

lemma insertCmp_context_front {x : Snippet} (hx : ctxTruthy x = true)
    (l : List Snippet) : insertCmp contextCompare x l = x :: l := by
  cases l with
  | nil => rfl
  | cons y t =>
    unfold insertCmp
    rw [if_pos (contextCompare_le_of_left hx)]

lemma insertCmp_context_after {x : Snippet} (hx : ctxTruthy x = false) :
    ∀ (T F : List Snippet), (∀ y ∈ T, ctxTruthy y = true) →
      (∀ y ∈ F, ctxTruthy y = false) →
      insertCmp contextCompare x (T ++ F) = T ++ x :: F := by
  intro T
  induction T with
  | nil =>
    intro F _ hF
    cases F with
    | nil => rfl
    | cons y t =>
      show insertCmp contextCompare x (y :: t) = x :: y :: t
      unfold insertCmp
      rw [if_pos (contextCompare_zero hx (hF y (List.mem_cons_self y t)))]
  | cons y T ih =>
    intro F hT hF
    show insertCmp contextCompare x (y :: (T ++ F)) = y :: (T ++ x :: F)
    unfold insertCmp
    rw [if_neg (contextCompare_pos hx (hT y (List.mem_cons_self y T)))]
    rw [ih F (fun z hz => hT z (List.mem_cons_of_mem y hz)) hF]

lemma sortSnippets_partition (l : List Snippet) :
    sortSnippets l =
      l.filter (fun s => ctxTruthy s) ++ l.filter (fun s => !(ctxTruthy s)) := by
  induction l with
  | nil => rfl
  | cons x t ih =>
    show insertCmp contextCompare x (sortSnippets t) = _
    rw [ih]
    cases hx : ctxTruthy x with
    | true =>
      rw [insertCmp_context_front hx]
      simp [List.filter_cons, hx]
    | false =>
      rw [insertCmp_context_after hx _ _
        (fun y hy => List.of_mem_filter hy)
        (fun y hy => by simpa using List.of_mem_filter hy)]
      simp [List.filter_cons, hx]


/-! Walk equations: one per branch of the loop body (lines 103–111). -/

lemma snippetWalk_nil (ctx : String → Bool) (line : String) (pos : Position)
    (h : Bool) : snippetWalk ctx line pos [] h = [] := rfl

lemma snippetWalk_ctx_pass {ctx : String → Bool} {line : String} {pos : Position}
    {s : Snippet} (t : List Snippet) (h : Bool) (hc : ctxTruthy s = true)
    (hcx : ctx (s.context.getD "") = true) :
    snippetWalk ctx line pos (s :: t) h =
      mkEdit line pos s :: snippetWalk ctx line pos t true := by
  simp [snippetWalk, hc, hcx]

lemma snippetWalk_ctx_fail {ctx : String → Bool} {line : String} {pos : Position}
    {s : Snippet} (t : List Snippet) (h : Bool) (hc : ctxTruthy s = true)
    (hcx : ctx (s.context.getD "") = false) :
    snippetWalk ctx line pos (s :: t) h = snippetWalk ctx line pos t h := by
  simp [snippetWalk, hc, hcx]

lemma snippetWalk_noctx_break {ctx : String → Bool} {line : String}
    {pos : Position} {s : Snippet} (t : List Snippet) (hc : ctxTruthy s = false) :
    snippetWalk ctx line pos (s :: t) true = [] := by
  simp [snippetWalk, hc]

lemma snippetWalk_noctx_take {ctx : String → Bool} {line : String}
    {pos : Position} {s : Snippet} (t : List Snippet) (hc : ctxTruthy s = false) :
    snippetWalk ctx line pos (s :: t) false =
      mkEdit line pos s :: snippetWalk ctx line pos t false := by
  simp [snippetWalk, hc]

lemma snippetWalk_mem (ctx : String → Bool) (line : String) (pos : Position) :
    ∀ (l : List Snippet) (h : Bool) (e : SnippetEdit),
      e ∈ snippetWalk ctx line pos l h → ∃ s, s ∈ l ∧ e = mkEdit line pos s := by
  intro l
  induction l with
  | nil =>
    intro h e he
    rw [snippetWalk_nil] at he
    exact absurd he (List.not_mem_nil e)
  | cons s t ih =>
    intro h e he
    cases hc : ctxTruthy s with
    | true =>
      cases hcx : ctx (s.context.getD "") with
      | true =>
        rw [snippetWalk_ctx_pass t h hc hcx] at he
        rcases List.mem_cons.mp he with he1 | he2
        · exact ⟨s, List.mem_cons_self s t, he1⟩
        · obtain ⟨s', hs', heq⟩ := ih true e he2
          exact ⟨s', List.mem_cons_of_mem s hs', heq⟩
      | false =>
        rw [snippetWalk_ctx_fail t h hc hcx] at he
        obtain ⟨s', hs', heq⟩ := ih h e he
        exact ⟨s', List.mem_cons_of_mem s hs', heq⟩
    | false =>
      cases hh : h with
      | true =>
        rw [hh, snippetWalk_noctx_break t hc] at he
        exact absurd he (List.not_mem_nil e)
      | false =>
        rw [hh, snippetWalk_noctx_take t hc] at he
        rcases List.mem_cons.mp he with he1 | he2
        · exact ⟨s, List.mem_cons_self s t, he1⟩
        · obtain ⟨s', hs', heq⟩ := ih false e he2
          exact ⟨s', List.mem_cons_of_mem s hs', heq⟩

lemma snippetWalk_mem_true (ctx : String → Bool) (line : String) (pos : Position) :
    ∀ (l : List Snippet) (e : SnippetEdit),
      e ∈ snippetWalk ctx line pos l true →
      ∃ s, s ∈ l ∧ ctxTruthy s = true ∧ e = mkEdit line pos s := by
  intro l
  induction l with
  | nil =>
    intro e he
    rw [snippetWalk_nil] at he
    exact absurd he (List.not_mem_nil e)
  | cons s t ih =>
    intro e he
    cases hc : ctxTruthy s with
    | true =>
      cases hcx : ctx (s.context.getD "") with
      | true =>
        rw [snippetWalk_ctx_pass t true hc hcx] at he
        rcases List.mem_cons.mp he with he1 | he2
        · exact ⟨s, List.mem_cons_self s t, hc, he1⟩
        · obtain ⟨s', hs', h1, h2⟩ := ih e he2
          exact ⟨s', List.mem_cons_of_mem s hs', h1, h2⟩
      | false =>
        rw [snippetWalk_ctx_fail t true hc hcx] at he
        obtain ⟨s', hs', h1, h2⟩ := ih e he
        exact ⟨s', List.mem_cons_of_mem s hs', h1, h2⟩
    | false =>
      rw [snippetWalk_noctx_break t hc] at he
      exact absurd he (List.not_mem_nil e)

lemma getTriggerSnippetsAlg_eq_walk (ctx : String → Bool) (snips : List Snippet)
    (doc : Doc) (pos : Position) (auto : Option Bool)
    (ha : auto.getD false = false)
    (hl : ((doc.getline pos.line).length == 0) = false) :
    getTriggerSnippetsAlg ctx snips doc pos auto =
      snippetWalk ctx (doc.getline pos.line) pos
        (sortSnippets (snips.filter
          (triggerFilter doc.isWord (doc.getline pos.line) auto))) false := by
  simp only [getTriggerSnippetsAlg, ha, hl, Bool.false_eq_true, if_false]

lemma getTriggerSnippetsAlg_mem (ctx : String → Bool) (snips : List Snippet)
    (doc : Doc) (pos : Position) (auto : Option Bool) (e : SnippetEdit)
    (he : e ∈ getTriggerSnippetsAlg ctx snips doc pos auto) :
    ∃ s, s ∈ snips ∧
      triggerFilter doc.isWord (doc.getline pos.line) auto s = true ∧
      e = mkEdit (doc.getline pos.line) pos s := by
  cases ha : auto.getD false with
  | true =>
    have : getTriggerSnippetsAlg ctx snips doc pos auto = [] := by
      simp only [getTriggerSnippetsAlg, ha, if_true]
    rw [this] at he
    exact absurd he (List.not_mem_nil e)
  | false =>
    cases hl : (doc.getline pos.line).length == 0 with
    | true =>
      have : getTriggerSnippetsAlg ctx snips doc pos auto = [] := by
        simp only [getTriggerSnippetsAlg, ha, hl, Bool.false_eq_true, if_false,
          if_true]
      rw [this] at he
      exact absurd he (List.not_mem_nil e)
    | false =>
      rw [getTriggerSnippetsAlg_eq_walk ctx snips doc pos auto ha hl] at he
      obtain ⟨s, hs, heq⟩ := snippetWalk_mem ctx _ pos _ false e he
      rw [sortSnippets_partition] at hs
      have hs' : s ∈ snips.filter
          (triggerFilter doc.isWord (doc.getline pos.line) auto) := by
        rcases List.mem_append.mp hs with h1 | h1
        · exact List.mem_of_mem_filter h1
        · exact List.mem_of_mem_filter h1
      exact ⟨s, List.mem_of_mem_filter hs', List.of_mem_filter hs', heq⟩

/-! `clearAuto` commutes with every stage of the pipeline: no stage other
than the dead branch at source line 86 reads `autoTrigger`. -/

lemma triggerFilter_clearAuto (isW : Char → Bool) (line : String)
    (auto : Option Bool) (hauto : auto.getD false = false) (s : Snippet) :
    triggerFilter isW line auto (clearAuto s) = triggerFilter isW line auto s := by
  unfold triggerFilter clearAuto
  rw [hauto]
  simp only [Bool.false_and, Bool.false_eq_true, if_false]
  rfl

lemma ctxTruthy_clearAuto (s : Snippet) : ctxTruthy (clearAuto s) = ctxTruthy s :=
  rfl

lemma mkEdit_clearAuto (line : String) (pos : Position) (s : Snippet) :
    mkEdit line pos (clearAuto s) = mkEdit line pos s := rfl

lemma insertCmp_clearAuto (x : Snippet) (l : List Snippet) :
    insertCmp contextCompare (clearAuto x) (l.map clearAuto) =
      (insertCmp contextCompare x l).map clearAuto := by
  induction l with
  | nil => rfl
  | cons y t ih =>
    show insertCmp contextCompare (clearAuto x) (clearAuto y :: t.map clearAuto) = _
    unfold insertCmp
    by_cases h : contextCompare x y ≤ 0
    · rw [if_pos (show contextCompare (clearAuto x) (clearAuto y) ≤ 0 from h),
        if_pos h]
      rfl
    · rw [if_neg (show ¬ contextCompare (clearAuto x) (clearAuto y) ≤ 0 from h),
        if_neg h]
      rw [List.map_cons, ih]

lemma sortSnippets_clearAuto (l : List Snippet) :
    sortSnippets (l.map clearAuto) = (sortSnippets l).map clearAuto := by
  induction l with
  | nil => rfl
  | cons x t ih =>
    show insertCmp contextCompare (clearAuto x) (sortSnippets (t.map clearAuto)) = _
    rw [ih, insertCmp_clearAuto]
    rfl

lemma snippetWalk_clearAuto (ctx : String → Bool) (line : String) (pos : Position) :
    ∀ (l : List Snippet) (h : Bool),
      snippetWalk ctx line pos (l.map clearAuto) h =
        snippetWalk ctx line pos l h := by
  intro l
  induction l with
  | nil => intro h; rfl
  | cons s t ih =>
    intro h
    show snippetWalk ctx line pos (clearAuto s :: t.map clearAuto) h = _
    cases hc : ctxTruthy s with
    | true =>
      have hc' : ctxTruthy (clearAuto s) = true := by rw [ctxTruthy_clearAuto, hc]
      cases hcx : ctx (s.context.getD "") with
      | true =>
        have hcx' : ctx ((clearAuto s).context.getD "") = true := hcx
        rw [snippetWalk_ctx_pass _ h hc' hcx', snippetWalk_ctx_pass t h hc hcx,
          mkEdit_clearAuto, ih true]
      | false =>
        have hcx' : ctx ((clearAuto s).context.getD "") = false := hcx
        rw [snippetWalk_ctx_fail _ h hc' hcx', snippetWalk_ctx_fail t h hc hcx,
          ih h]
    | false =>
      have hc' : ctxTruthy (clearAuto s) = false := by rw [ctxTruthy_clearAuto, hc]
      cases hh : h with
      | true => rw [snippetWalk_noctx_break _ hc', snippetWalk_noctx_break t hc]
      | false =>
        rw [snippetWalk_noctx_take _ hc', snippetWalk_noctx_take t hc,
          mkEdit_clearAuto, ih false]

lemma getTriggerSnippetsAlg_clearAuto (ctx : String → Bool) (l : List Snippet)
    (doc : Doc) (pos : Position) (auto : Option Bool) :
    getTriggerSnippetsAlg ctx (l.map clearAuto) doc pos auto =
      getTriggerSnippetsAlg ctx l doc pos auto := by
  cases ha : auto.getD false with
  | true => simp only [getTriggerSnippetsAlg, ha, if_true]
  | false =>
    cases hl : (doc.getline pos.line).length == 0 with
    | true =>
      simp only [getTriggerSnippetsAlg, ha, hl, Bool.false_eq_true, if_false,
        if_true]
    | false =>
      rw [getTriggerSnippetsAlg_eq_walk ctx _ doc pos auto ha hl,
        getTriggerSnippetsAlg_eq_walk ctx l doc pos auto ha hl]
      rw [List.filter_map]
      have hfc : (l.filter
          ((triggerFilter doc.isWord (doc.getline pos.line) auto) ∘ clearAuto)) =
          l.filter (triggerFilter doc.isWord (doc.getline pos.line) auto) :=
        List.filter_congr fun s _ =>
          triggerFilter_clearAuto doc.isWord (doc.getline pos.line) auto ha s
      rw [hfc, sortSnippets_clearAuto, snippetWalk_clearAuto]

/-! `mapItems` conversion lemma used for the duplicate-name check. -/

lemma any_enumFrom (p : SnippetContent → Bool) :
    ∀ (l : List SnippetContent) (n : Nat),
      ((List.enumFrom n l).any fun x => p x.2) = l.any p := by
  intro l
  induction l with
  | nil => intro n; rfl
  | cons a t ih =>
    intro n
    show (p a || (List.enumFrom (n + 1) t).any fun x => p x.2) = (p a || t.any p)
    rw [ih]

lemma any_map_general {α β : Type} (f : α → β) (p : β → Bool) :
    ∀ l : List α, (l.map f).any p = l.any fun a => p (f a) := by
  intro l
  induction l with
  | nil => rfl
  | cons a t ih =>
    show (p (f a) || (t.map f).any p) = _
    rw [ih]
    rfl

lemma mapItemsCore_any (items : List SnippetContent) (name ft : String) :
    ((mapItemsCore items).any fun sn =>
        sn.snipPrefix == name && sn.filetype == ft) =
      (items.any fun it => it.name == name && it.language == ft) := by
  unfold mapItemsCore
  rw [any_map_general]
  show ((List.enumFrom 0 items).any fun x =>
    x.2.name == name && x.2.language == ft) = _
  exact any_enumFrom (fun it => it.name == name && it.language == ft) items 0

/-! Candidate-filter reductions for literal-prefix snippets. -/

lemma getMatched_literal_append {s : Snippet} (hr : s.regex = none)
    (hp : s.snipPrefix = m) (pre : String) :
    getMatched s (pre ++ m) = some m := by
  unfold getMatched
  rw [hr, hp]
  show (if jsEndsWith (pre ++ m) m then some m else none) = some m
  rw [jsEndsWith_append]
  rfl

lemma triggerFilter_literal_append (isW : Char → Bool) (pre m : String)
    (s : Snippet) (hr : s.regex = none) (hp : s.snipPrefix = m) :
    triggerFilter isW (pre ++ m) none s =
      (if s.triggerKind = TriggerKind.InWord then true
       else if s.triggerKind = TriggerKind.LineBegin then jsTrim pre == ""
       else if s.triggerKind = TriggerKind.SpaceBefore then
         pre.length == 0 || jsWsEnd pre
       else if s.triggerKind = TriggerKind.WordBoundary then
         pre.length == 0 || !(isW (jsLastChar pre))
       else false) := by
  have hm : getMatched s (pre ++ m) = some m := getMatched_literal_append hr hp pre
  have hlen : (pre ++ m).length - m.length = (pre ++ m).length - m.length := rfl
  simp only [triggerFilter, hm, Option.getD_none, Bool.false_and,
    Bool.false_eq_true, if_false, jsSlice0_append_cancel]

lemma triggerFilter_inword_literal (isW : Char → Bool) (line : String)
    (s : Snippet) (hr : s.regex = none)
    (hk : s.triggerKind = TriggerKind.InWord) :
    triggerFilter isW line none s = jsEndsWith line s.snipPrefix := by
  cases hEnd : jsEndsWith line s.snipPrefix with
  | true =>
    have hm : getMatched s line = some s.snipPrefix := by
      unfold getMatched
      rw [hr, hEnd]
      rfl
    simp only [triggerFilter, hm, Option.getD_none, Bool.false_and,
      Bool.false_eq_true, if_false, hk, if_true]
  | false =>
    have hm : getMatched s line = none := by
      unfold getMatched
      rw [hr, hEnd]
      rfl
    simp only [triggerFilter, hm, Option.getD_none, Bool.false_and,
      Bool.false_eq_true, if_false]

lemma ctxTruthy_of_none {s : Snippet} (hc : s.context = none) :
    ctxTruthy s = false := by
  unfold ctxTruthy
  rw [hc]

lemma jsWsEnd_iff (s : String) :
    jsWsEnd s = true ↔ ∃ c, s.data.getLast? = some c ∧ c.isWhitespace = true := by
  unfold jsWsEnd
  cases h : s.data.getLast? with
  | none => simp
  | some c => simp

lemma lastChar_not_iff (isW : Char → Bool) (s : String) :
    (((s.length == 0) || !(isW (jsLastChar s))) = true) ↔
      (s = "" ∨ ∃ c, s.data.getLast? = some c ∧ isW c = false) := by
  rw [Bool.or_eq_true, string_empty_beq_iff]
  cases h : s.data.getLast? with
  | none =>
    have hs : s = "" := string_getLast?_none_eq_empty h
    subst hs
    simp
  | some c =>
    have hs : s ≠ "" := fun hh => by
      rw [hh] at h
      exact Option.noConfusion h
    unfold jsLastChar
    rw [h]
    simp [hs, Bool.not_eq_true']

/-! ### Claim theorems -/

/-- Claim C1 (counterexample): the claim says a snippet is a candidate iff the
text immediately preceding the cursor ends with its literal prefix.  At line
`"fnx"` with the cursor at character 2, the text before the cursor (`"fn"`)
ends with the prefix `"fn"`, yet `getTriggerSnippets` produces no candidate:
matching tests the whole line (`"fnx"`), which does not end with `"fn"`. -/
theorem c1_counterexample :
    jsEndsWith (jsSlice0 (docFnx.getline 0) 2) "fn" = true ∧
    getTriggerSnippetsAlg ctx0 [c1Snip] docFnx ⟨0, 2⟩ none = [] :=
  ⟨by decide, rfl⟩

/-- Claim C1 (amended): a literal-prefix snippet is a candidate of
`getTriggerSnippets` iff the entire current line ends with its prefix; the
cursor offset is not consulted during matching.  In particular, with the
cursor at end of line, a line ending exactly in the prefix yields the one
corresponding edit, and a line differing by one trailing character yields
none. -/
theorem c1_whole_line_suffix_match :
    (∀ (ctx : String → Bool) (doc : Doc) (pos : Position) (s : Snippet),
        s.regex = none → s.triggerKind = TriggerKind.InWord →
        s.context = none → doc.getline pos.line ≠ "" →
        getTriggerSnippetsAlg ctx [s] doc pos none =
          (if jsEndsWith (doc.getline pos.line) s.snipPrefix then
            [mkEdit (doc.getline pos.line) pos s] else []))
  ∧ getTriggerSnippetsAlg ctx0 [c1Snip] docFn ⟨0, 2⟩ none =
      [mkEdit (docFn.getline 0) ⟨0, 2⟩ c1Snip]
  ∧ getTriggerSnippetsAlg ctx0 [c1Snip] docFnx ⟨0, 3⟩ none = [] := by
  refine ⟨?_, rfl, rfl⟩
  intro ctx doc pos s hr hk hc hne
  rw [getTriggerSnippetsAlg_eq_walk ctx [s] doc pos none rfl
    (string_length_beq_zero_eq_false hne)]
  have hf : triggerFilter doc.isWord (doc.getline pos.line) none s =
      jsEndsWith (doc.getline pos.line) s.snipPrefix :=
    triggerFilter_inword_literal doc.isWord _ s hr hk
  have hct : ctxTruthy s = false := ctxTruthy_of_none hc
  cases hEnd : jsEndsWith (doc.getline pos.line) s.snipPrefix with
  | true =>
    have hfil : List.filter
        (triggerFilter doc.isWord (doc.getline pos.line) none) [s] = [s] := by
      rw [List.filter_cons, hf, hEnd]
      rfl
    rw [hfil, show sortSnippets [s] = [s] from rfl,
      snippetWalk_noctx_take [] hct, snippetWalk_nil, if_pos rfl]
  | false =>
    have hfil : List.filter
        (triggerFilter doc.isWord (doc.getline pos.line) none) [s] = [] := by
      rw [List.filter_cons, hf, hEnd]
      rfl
    rw [hfil, show sortSnippets [] = [] from rfl, snippetWalk_nil,
      if_neg (by simp)]

theorem c1_witness :
    getTriggerSnippetsAlg ctx0 [c1Snip] docFn ⟨0, 2⟩ none =
      (if jsEndsWith (docFn.getline 0) c1Snip.snipPrefix then
        [mkEdit (docFn.getline 0) ⟨0, 2⟩ c1Snip] else []) :=
  c1_whole_line_suffix_match.1 ctx0 docFn ⟨0, 2⟩ c1Snip rfl rfl rfl (by decide)

/-- Claim C2: in the candidate walk of `getTriggerSnippets`, a context-bearing
candidate whose check evaluates false is skipped without stopping the walk; a
context-bearing candidate whose check evaluates true is included and the walk
continues with `hasContext` set; and with `hasContext` set every returned edit
originates from a context-bearing candidate, so after a successful context
check every subsequent non-context candidate is excluded even if it matched
the trigger. -/
theorem c2_context_walk (ctx : String → Bool) (line : String) (pos : Position) :
    (∀ (s : Snippet) (t : List Snippet) (h : Bool),
        ctxTruthy s = true → ctx (s.context.getD "") = false →
        snippetWalk ctx line pos (s :: t) h = snippetWalk ctx line pos t h)
  ∧ (∀ (s : Snippet) (t : List Snippet) (h : Bool),
        ctxTruthy s = true → ctx (s.context.getD "") = true →
        snippetWalk ctx line pos (s :: t) h =
          mkEdit line pos s :: snippetWalk ctx line pos t true)
  ∧ (∀ (l : List Snippet) (e : SnippetEdit),
        e ∈ snippetWalk ctx line pos l true →
        ∃ s, s ∈ l ∧ ctxTruthy s = true ∧ e = mkEdit line pos s) :=
  ⟨fun _ t h hc hcx => snippetWalk_ctx_fail t h hc hcx,
   fun _ t h hc hcx => snippetWalk_ctx_pass t h hc hcx,
   fun l e he => snippetWalk_mem_true ctx line pos l e he⟩

theorem c2_witness :
    snippetWalk ctx0 "x" ⟨0, 0⟩ [sampB] false =
      snippetWalk ctx0 "x" ⟨0, 0⟩ [] false :=
  (c2_context_walk ctx0 "x" ⟨0, 0⟩).1 sampB [] false rfl rfl

/-- Claim C3 (counterexample): with an empty alias set for `"go"` and a
catalog holding one snippet whose filetype is the wildcard `"all"`, the
claimed filter (filetype equals `ft`, or `"all"`, or an alias) returns that
snippet, but the source's `getSnippets` returns the empty list: it filters
only by `getFiletypes` and never appends `"all"`. -/
theorem c3_counterexample :
    SniphubProvider.getSnippets aliases0 ⟨some [allContent]⟩ "go" = .ok [] ∧
    getSnippetsClaimed aliases0 [allContent] "go" ≠ [] :=
  ⟨rfl, List.cons_ne_nil _ _⟩

/-- Claim C3 (amended): for every file type `ft`, `getSnippets` returns
exactly those catalog snippets whose filetype equals `ft` or matches an entry
of `ft`'s alias set; snippets with the wildcard filetype `"all"` are not
returned (the wildcard is honored only by `getSnippetFiles`, which appends
`"all"` to the filetype list). -/
theorem c3_no_wildcard_in_getSnippets (aliases : String → List String)
    (st : ProviderState) (items : List SnippetContent) (ft : String)
    (h : st.sniphubItems = some items) :
    SniphubProvider.getSnippets aliases st ft =
      .ok ((mapItemsCore items).filter fun s =>
        s.filetype == ft || (aliases ft).contains s.filetype) := by
  unfold SniphubProvider.getSnippets SniphubProvider.mapItems
  rw [h]
  rfl

theorem c3_witness :
    SniphubProvider.getSnippets aliases0 st0 "go" =
      .ok ((mapItemsCore [fnContent]).filter fun s =>
        s.filetype == "go" || (aliases0 "go").contains s.filetype) :=
  c3_no_wildcard_in_getSnippets aliases0 st0 [fnContent] "go" rfl

/-- Claim C4: every SnippetEdit emitted by `getTriggerSnippets` comes from a
candidate snippet via `mkEdit`, so it spans the cursor's line from start
column `cursorOffset - matchedTriggerText.length` to the cursor offset and
carries the snippet's body, description, location, priority, original
pattern, and context; end to end, the catalog `{prefix:"fn",
triggerKind:WordBoundary, filetype:"go"}` with line `"  fn"`, cursor at
column 4, and file type `"go"` yields exactly one edit with range
`[line, 2]`–`[line, 4]`. -/
theorem c4_edit_range :
    (∀ (ctx : String → Bool) (snips : List Snippet) (doc : Doc)
        (pos : Position) (auto : Option Bool) (e : SnippetEdit),
        e ∈ getTriggerSnippetsAlg ctx snips doc pos auto →
        ∃ s, s ∈ snips ∧
          triggerFilter doc.isWord (doc.getline pos.line) auto s = true ∧
          e = mkEdit (doc.getline pos.line) pos s ∧
          e.range = ⟨pos.line,
            (pos.character : Int) - (matchLenOf s (doc.getline pos.line) : Int),
            pos.line, (pos.character : Int)⟩)
  ∧ SniphubProvider.getTriggerSnippets ctx0 aliases0 st0 doc0 ⟨0, 4⟩ none =
      .ok [fnEdit] := by
  constructor
  · intro ctx snips doc pos auto e he
    obtain ⟨s, hs, hf, heq⟩ :=
      getTriggerSnippetsAlg_mem ctx snips doc pos auto e he
    exact ⟨s, hs, hf, heq, by rw [heq]; rfl⟩
  · rfl

theorem c4_witness :
    ∃ s, s ∈ [c1Snip] ∧
      triggerFilter docFn.isWord (docFn.getline 0) none s = true ∧
      mkEdit (docFn.getline 0) ⟨0, 2⟩ c1Snip =
        mkEdit (docFn.getline 0) ⟨0, 2⟩ s ∧
      (mkEdit (docFn.getline 0) ⟨0, 2⟩ c1Snip).range =
        ⟨0, ((2 : Nat) : Int) - (matchLenOf s (docFn.getline 0) : Int), 0,
          ((2 : Nat) : Int)⟩ :=
  c4_edit_range.1 ctx0 [c1Snip] docFn ⟨0, 2⟩ none
    (mkEdit (docFn.getline 0) ⟨0, 2⟩ c1Snip) (by decide)

/-- Claim C5: for a literal-prefix snippet matched on line `pre ++ prefix`
(so `pre` is the text preceding the matched substring), the trigger-kind
filter admits a `LineBegin` snippet iff `pre` trimmed of whitespace is empty,
a `SpaceBefore` snippet iff `pre` is empty or its last character is
whitespace, and a `WordBoundary` snippet iff `pre` is empty or its last
character is not a word character per the host classifier. -/
theorem c5_trigger_kind_filter (isW : Char → Bool) (pre m : String)
    (s : Snippet) (hr : s.regex = none) (hp : s.snipPrefix = m) :
    (s.triggerKind = TriggerKind.LineBegin →
      (triggerFilter isW (pre ++ m) none s = true ↔ jsTrim pre = ""))
  ∧ (s.triggerKind = TriggerKind.SpaceBefore →
      (triggerFilter isW (pre ++ m) none s = true ↔
        pre = "" ∨ ∃ c, pre.data.getLast? = some c ∧ c.isWhitespace = true))
  ∧ (s.triggerKind = TriggerKind.WordBoundary →
      (triggerFilter isW (pre ++ m) none s = true ↔
        pre = "" ∨ ∃ c, pre.data.getLast? = some c ∧ isW c = false)) := by
  rw [triggerFilter_literal_append isW pre m s hr hp]
  refine ⟨fun hk => ?_, fun hk => ?_, fun hk => ?_⟩
  · rw [hk]
    simp only [show (TriggerKind.LineBegin = TriggerKind.InWord) = False by
        simp, if_false, if_pos rfl]
    exact beq_iff_eq
  · rw [hk]
    simp only [show (TriggerKind.SpaceBefore = TriggerKind.InWord) = False by
        simp,
      show (TriggerKind.SpaceBefore = TriggerKind.LineBegin) = False by simp,
      if_false, eq_self_iff_true, if_true]
    rw [Bool.or_eq_true, string_empty_beq_iff]
    exact or_congr Iff.rfl (jsWsEnd_iff pre)
  · rw [hk]
    simp only [show (TriggerKind.WordBoundary = TriggerKind.InWord) = False by
        simp,
      show (TriggerKind.WordBoundary = TriggerKind.LineBegin) = False by simp,
      show (TriggerKind.WordBoundary = TriggerKind.SpaceBefore) = False by
        simp,
      if_false, eq_self_iff_true, if_true]
    exact lastChar_not_iff isW pre

theorem c5_witness :
    triggerFilter isWord0 ("  " ++ "//") none c5Snip = true ↔ jsTrim "  " = "" :=
  (c5_trigger_kind_filter isWord0 "  " "//" c5Snip rfl rfl).1 rfl

/-- Claim C6: the candidate ordering of `getTriggerSnippets` is a stable sort
by context presence only: every context-bearing snippet precedes every
context-free one and the relative order within each class is the catalog
order; on catalog order A (no context), B (context), C (no context) the
sorted order is B, A, C. -/
theorem c6_context_sort_stable :
    (∀ l : List Snippet, sortSnippets l =
        l.filter (fun s => ctxTruthy s) ++ l.filter (fun s => !(ctxTruthy s)))
  ∧ sortSnippets [sampA, sampB, sampC] = [sampB, sampA, sampC] :=
  ⟨sortSnippets_partition, rfl⟩

/-- Claim C7 (counterexample): when the initial load fails the catalog is
left unrefreshed, but a subsequent matching call (file type `"go"`, line
`"  fn"`, explicit trigger) does not "return no candidates": it fails with
the TypeError raised by using the still-undefined `sniphubItems`. -/
theorem c7_counterexample :
    SniphubProvider.init (.error "network failure") stEmpty = stEmpty ∧
    SniphubProvider.getTriggerSnippets ctx0 aliases0 stEmpty doc0 ⟨0, 4⟩ none =
      .error .typeError ∧
    (Except.error JsError.typeError : Except JsError (List SnippetEdit)) ≠
      .ok [] :=
  ⟨rfl, rfl, fun h => Except.noConfusion h⟩

/-- Claim C7 (amended): a failed initial load leaves the catalog unrefreshed
(`sniphubItems` still unassigned); until a successful load, a matching call
with a non-empty current line and no auto-trigger flag fails with a TypeError
on the uninitialized catalog instead of returning an empty candidate list,
while an auto-triggered call returns no candidates without touching the
catalog; a successful load populates the catalog with the response. -/
theorem c7_failed_init_unrefreshed :
    (∀ (e : String) (st : ProviderState),
        SniphubProvider.init (.error e) st = st)
  ∧ (∀ (ctx : String → Bool) (aliases : String → List String) (doc : Doc)
        (pos : Position), doc.getline pos.line ≠ "" →
        SniphubProvider.getTriggerSnippets ctx aliases stEmpty doc pos none =
          .error .typeError)
  ∧ (∀ (ctx : String → Bool) (aliases : String → List String) (doc : Doc)
        (pos : Position),
        SniphubProvider.getTriggerSnippets ctx aliases stEmpty doc pos
          (some true) = .ok [])
  ∧ (∀ (r : HttpResponseItem) (st : ProviderState),
        (SniphubProvider.init (.ok r) st).sniphubItems = some r.snippets) := by
  refine ⟨fun e st => rfl, ?_, fun ctx aliases doc pos => rfl,
    fun r st => rfl⟩
  intro ctx aliases doc pos hne
  simp only [SniphubProvider.getTriggerSnippets, SniphubProvider.getSnippets,
    SniphubProvider.mapItems, stEmpty, string_length_beq_zero_eq_false hne,
    Option.getD_none, Bool.false_eq_true, if_false, Except.map]

theorem c7_witness :
    SniphubProvider.getTriggerSnippets ctx0 aliases0 stEmpty docFn ⟨0, 0⟩ none =
      .error .typeError :=
  c7_failed_init_unrefreshed.2.1 ctx0 aliases0 docFn ⟨0, 0⟩ (by decide)

/-- Claim C8: when `createSnippet` is invoked with a (non-empty) name that
already exists for the current file type in the refreshed catalog, the
duplicate is detected before submission: the user-visible duplicate message
is shown, no POST is issued, and no snippet is created (the state keeps
exactly the refreshed items). -/
theorem c8_duplicate_abort (text : Option String) (ft name : String)
    (hname : name ≠ "") (r : HttpResponseItem) (serverResp : SnippetContent)
    (st : ProviderState)
    (hdup : ∃ it, it ∈ r.snippets ∧ it.name = name ∧ it.language = ft) :
    SniphubProvider.createSnippet text ft (some name) (.ok r) serverResp st =
      .ok { messages :=
              [s!"Snippet with name {name} for this filetype already exists"]
            posted := none
            state := { st with sniphubItems := some r.snippets } } := by
  have h1 : (name == "") = false := beq_eq_false_iff_ne.mpr hname
  have h2 : ((mapItemsCore r.snippets).any fun it =>
      it.snipPrefix == name && it.filetype == ft) = true := by
    rw [mapItemsCore_any]
    obtain ⟨it, hit, hn, hl⟩ := hdup
    exact List.any_eq_true.mpr ⟨it, hit, by rw [hn, hl]; simp⟩
  simp only [SniphubProvider.createSnippet, Option.getD_some, h1,
    Bool.false_eq_true, if_false, h2, if_true]

theorem c8_witness :
    SniphubProvider.createSnippet none "go" (some "fn") (.ok ⟨[fnContent]⟩)
        fnContent stEmpty =
      .ok { messages :=
              ["Snippet with name fn for this filetype already exists"]
            posted := none
            state := { stEmpty with sniphubItems := some [fnContent] } } :=
  c8_duplicate_abort none "go" "fn" (by decide) ⟨[fnContent]⟩ fnContent stEmpty
    ⟨fnContent, List.mem_cons_self fnContent [], rfl, rfl⟩

/-- Claim C9: `getTriggerSnippets` is independent of every snippet's
`autoTrigger` field: two catalogs that agree after erasing `autoTrigger`
produce the same edits for every document, position and flag; when the flag
is set the result is empty regardless. -/
theorem c9_auto_trigger_independent (l₁ l₂ : List Snippet)
    (h : l₁.map clearAuto = l₂.map clearAuto) (ctx : String → Bool) (doc : Doc)
    (pos : Position) (auto : Option Bool) :
    getTriggerSnippetsAlg ctx l₁ doc pos auto =
      getTriggerSnippetsAlg ctx l₂ doc pos auto
    ∧ getTriggerSnippetsAlg ctx l₁ doc pos (some true) = [] := by
  constructor
  · rw [← getTriggerSnippetsAlg_clearAuto ctx l₁ doc pos auto, h,
      getTriggerSnippetsAlg_clearAuto]
  · rfl

theorem c9_witness :
    getTriggerSnippetsAlg ctx0 [c9SnipTrue] doc0 ⟨0, 4⟩ none =
      getTriggerSnippetsAlg ctx0 [c1Snip] doc0 ⟨0, 4⟩ none ∧
    getTriggerSnippetsAlg ctx0 [c9SnipTrue] doc0 ⟨0, 4⟩ (some true) = [] :=
  c9_auto_trigger_independent [c9SnipTrue] [c1Snip] rfl ctx0 doc0 ⟨0, 4⟩ none

/-- Claim C10: `getTriggerSnippets` does not clamp the computed start column:
every emitted edit's start character is exactly the cursor offset minus the
matched trigger text's length, and with catalog `{name:"fn",
language:"go"}`, line `" fn"` and the cursor at column 0 the one emitted
edit has the negative start character `-2`. -/
theorem c10_no_clamp_negative_start :
    (∀ (ctx : String → Bool) (snips : List Snippet) (doc : Doc)
        (pos : Position) (auto : Option Bool) (e : SnippetEdit),
        e ∈ getTriggerSnippetsAlg ctx snips doc pos auto →
        ∃ s, s ∈ snips ∧ e.range.startCharacter =
          (pos.character : Int) - (matchLenOf s (doc.getline pos.line) : Int))
  ∧ SniphubProvider.getTriggerSnippets ctx0 aliases0 st0 docNeg ⟨0, 0⟩ none =
      .ok [negEdit]
  ∧ negEdit.range.startCharacter = -2 := by
  refine ⟨?_, rfl, rfl⟩
  intro ctx snips doc pos auto e he
  obtain ⟨s, hs, hf, heq⟩ := getTriggerSnippetsAlg_mem ctx snips doc pos auto e he
  exact ⟨s, hs, by rw [heq]; rfl⟩

theorem c10_witness :
    ∃ s, s ∈ [c1Snip] ∧
      (mkEdit (docFn.getline 0) ⟨0, 0⟩ c1Snip).range.startCharacter =
        ((0 : Nat) : Int) - (matchLenOf s (docFn.getline 0) : Int) :=
  c10_no_clamp_negative_start.1 ctx0 [c1Snip] docFn ⟨0, 0⟩ none
    (mkEdit (docFn.getline 0) ⟨0, 0⟩ c1Snip) (by decide)
